import Mathlib

/-!
Shallow embedding of `gotimer.go` (package gotimer), a single-file in-process
callback scheduler with two timer variants.

Modelling conventions:
- `time.Time` and `time.Duration` are both embedded as `Int` (Go stores both
  as integer nanosecond counts; no claim here depends on overflow, so plain
  `Int` arithmetic is used).  `t.After(n)` is the strict comparison `n < t`,
  and `t.Add(d)` is `t + d`.
- A timer is generic over its payload type `T` (Go: `[T any]`).  The
  caller-supplied callback `fn : T → E` is kept opaque; invoking it is
  observable through the list of produced effects, so `tick` returns the
  updated timer together with the list of callback results it emitted
  (one element per invocation).
- Go methods mutate through a pointer receiver; here each method returns the
  updated record.  Field names follow the source (`c`, `i`, `n`, `fn`, `t`,
  `s`).
-/

namespace Gotimer

/-- Embedding of `IntervalTimer[T]` (gotimer.go lines 89-96): creation time
`c`, repeat interval `i`, next-due time `n`, callback `fn`, payload `t`,
stop flag `s`. -/
structure IntervalTimer (T E : Type) where
  c : Int
  i : Int
  n : Int
  fn : T → E
  t : T
  s : Bool

/-- Embedding of `OneTimer[T]` (gotimer.go lines 114-118): creation time `c`,
callback `fn`, payload `t`. -/
structure OneTimer (T E : Type) where
  c : Int
  fn : T → E
  t : T

/-- The `timer` interface (gotimer.go lines 18-23) has exactly two
implementations in the package, so it is embedded as a sum. -/
inductive Timer (T E : Type) where
  | interval : IntervalTimer T E → Timer T E
  | one : OneTimer T E → Timer T E

/-- Embedding of `IntervalTimer.tick` (lines 107-112): if `t.After(self.n)`
then call `self.fn(self.t)` and set `self.n = t.Add(self.i)`; otherwise do
nothing.  The emitted-effect list records the callback invocations. -/
def IntervalTimer.tick {T E : Type} (tm : IntervalTimer T E) (t : Int) :
    IntervalTimer T E × List E :=
  if tm.n < t then ({ tm with n := t + tm.i }, [tm.fn tm.t])
  else (tm, [])

/-- Embedding of `OneTimer.tick` (lines 129-131): unconditionally call
`self.fn(self.t)`; no field changes. -/
def OneTimer.tick {T E : Type} (tm : OneTimer T E) (_t : Int) :
    OneTimer T E × List E :=
  (tm, [tm.fn tm.t])

/-- Embedding of `getInterval`: the interval variant returns `&self.i`
(always a non-nil pointer, lines 101-103); the one-shot variant returns
`nil` (lines 123-125). -/
def Timer.getInterval {T E : Type} : Timer T E → Option Int
  | .interval tm => some tm.i
  | .one _ => none

/-- Embedding of `getCreated` (lines 98-100 and 120-122). -/
def Timer.getCreated {T E : Type} : Timer T E → Int
  | .interval tm => tm.c
  | .one tm => tm.c

/-- Embedding of `getStop`: the interval variant returns `self.s`
(lines 104-106); the one-shot variant returns `true` (lines 126-128). -/
def Timer.getStop {T E : Type} : Timer T E → Bool
  | .interval tm => tm.s
  | .one _ => true

/-- Interface dispatch of `tick` over the two variants. -/
def Timer.tick {T E : Type} (tm : Timer T E) (t : Int) : Timer T E × List E :=
  match tm with
  | .interval itm =>
    let r := itm.tick t
    (.interval r.1, r.2)
  | .one otm =>
    let r := otm.tick t
    (.one r.1, r.2)

/-- Embedding of `NewIntervalTimer` (lines 134-144) at construction time
`now`: `c = time.Now().UTC()`, `i = interval`, `n = time.Now().Add(interval)`,
payload and callback stored, stop flag zero-valued `false`.  The `delay`
argument does not enter the record; it only controls registration timing
(see `queueAction`). -/
def NewIntervalTimer {T E : Type} (fn : T → E) (v : T) (_delay : Option Int)
    (interval : Int) (now : Int) : IntervalTimer T E :=
  { c := now, i := interval, n := now + interval, fn := fn, t := v, s := false }

/-- Embedding of `NewOneTimer` (lines 147-155) at construction time `now`. -/
def NewOneTimer {T E : Type} (fn : T → E) (v : T) (_delay : Option Int)
    (now : Int) : OneTimer T E :=
  { c := now, fn := fn, t := v }

/-- Repeated ticking of one interval timer at a list of poll times, in order,
recording the times at which the callback actually fired.  This is how the
poll loop drives a live interval timer: one `tick(time.Now())` per sweep. -/
def tickRun {T E : Type} (tm : IntervalTimer T E) :
    List Int → IntervalTimer T E × List Int
  | [] => (tm, [])
  | t :: ts =>
    let k := tm.tick t
    let rest := tickRun k.1 ts
    if k.2.isEmpty then rest else (rest.1, t :: rest.2)

/-- Embedding of the sweep-mark loop of `poll` (default `select` branch,
lines 52-65): iterate over the live set with the running index; a one-shot
timer (`getInterval() == nil`) is ticked and its index marked, a stopped
interval timer is marked without ticking, a running interval timer is
ticked.  Returns the updated timer list, the marked indices in ascending
order (`del`), and the emitted callback effects in invocation order. -/
def sweepMark {T E : Type} (now : Int) : List (Timer T E) → Nat →
    List (Timer T E) × List Nat × List E
  | [], _ => ([], [], [])
  | tm :: rest, i =>
    let r := sweepMark now rest (i + 1)
    match tm.getInterval with
    | none =>
      let k := tm.tick now
      (k.1 :: r.1, i :: r.2.1, k.2 ++ r.2.2)
    | some _ =>
      if tm.getStop then (tm :: r.1, i :: r.2.1, r.2.2)
      else
        let k := tm.tick now
        (k.1 :: r.1, r.2.1, k.2 ++ r.2.2)

/-- Embedding of one removal step (line 67):
`s.timers = append(s.timers[:idx], s.timers[:idx+1]...)`.
For `idx + 1 ≤ timers.length` (the only regime the claims exercise) the Go
expression evaluates, by slice value semantics with overlap-safe copy, to
`timers[0:idx] ++ timers[0:idx+1]`: the source re-appends the prefix up to
and including `idx` instead of the suffix after `idx` (the Go delete idiom
would have been `append(s.timers[:idx], s.timers[idx+1:]...)`). -/
def removeOnce {T E : Type} (timers : List (Timer T E)) (idx : Nat) :
    List (Timer T E) :=
  timers.take idx ++ timers.take (idx + 1)

/-- Embedding of the removal loop (lines 66-68): apply `removeOnce` for each
marked index, in the ascending order `del` was collected. -/
def removeAll {T E : Type} (timers : List (Timer T E)) (del : List Nat) :
    List (Timer T E) :=
  del.foldl removeOnce timers

/-- One full default-branch iteration of `poll` (lines 52-68): the
mark-and-tick sweep followed by the removal loop.  Returns the live set
after removal and the callback effects emitted during the sweep. -/
def sweep {T E : Type} (timers : List (Timer T E)) (now : Int) :
    List (Timer T E) × List E :=
  let m := sweepMark now timers 0
  (removeAll m.1 m.2.1, m.2.2)

namespace PanicModel

/-- Panic-aware refinement of the one-shot timer: the callback returns
`Option E`, where `none` models a Go `panic` raised inside the
caller-supplied function and `some e` a normal return producing effect
`e`.  One-shot timers suffice to study the fault path because `poll` ticks
them unconditionally on every sweep. -/
structure POne (T E : Type) where
  c : Int
  fn : T → Option E
  t : T

/-- One sweep over one-shot timers whose callbacks may panic.  Go unwinds
out of the `range` loop at the first panicking callback: timers after it in
the live set are not processed in that sweep, while effects of earlier
invocations persist.  Returns the effects produced before the panic and the
panic message, if any. -/
def sweepP {T E : Type} : List (POne T E) → List E × Option String
  | [] => ([], none)
  | tm :: rest =>
    match tm.fn tm.t with
    | some e =>
      let r := sweepP rest
      (e :: r.1, r.2)
    | none => ([], some "callback panicked")

/-- Observable outcome of the poll goroutine around one sweep: the callback
effects, whether the poll loop is still running afterwards, the diagnostic
recorded by the `recover` handler, and whether the panic escaped to any
caller. -/
structure PollOutcome (E : Type) where
  effects : List E
  loopAlive : Bool
  diagnostic : Option String
  panicPropagated : Bool

/-- Embedding of `poll`'s fault handling (lines 39-44): the
`defer`/`recover` sits at the top of the `poll` function, outside the
`for` loop, so a panic unwinding out of a sweep is caught there, a
diagnostic is printed (`recovered from panic: %v`), and `poll` returns —
the loop is not resumed.  Without a panic the loop continues.  In neither
case is anything re-raised to a caller. -/
def pollSweep {T E : Type} (timers : List (POne T E)) : PollOutcome E :=
  let r := sweepP timers
  match r.2 with
  | none => ⟨r.1, true, none, false⟩
  | some m => ⟨r.1, false, some ("recovered from panic: " ++ m), false⟩

/-- Whether some timer in the list has a panicking callback. -/
def hasPanic {T E : Type} (timers : List (POne T E)) : Bool :=
  timers.any fun tm => (tm.fn tm.t).isNone

end PanicModel

/-- Control-flow shape of the registration hand-off performed by `queue`
(lines 77-87). -/
inductive RegistrationStep where
  | sendOnCallerFlow : RegistrationStep
  | spawnDelayedWaiter : Int → RegistrationStep

/-- Embedding of the branch `queue(t, delay)` takes: with a non-nil delay it
spawns a goroutine that sleeps and then sends (the caller does not wait);
with a nil delay it executes `s.queue <- t` directly on the calling
goroutine.  Both constructors invoke `queue` via `defer`, which Go runs
before the function returns to its caller, so this step happens inside the
constructor call. -/
def queueStep (delay : Option Int) : RegistrationStep :=
  match delay with
  | some d => .spawnDelayedWaiter d
  | none => .sendOnCallerFlow

/-- Whether the registration step can block the constructor before it
returns.  The intake channel is unbuffered (`make(chan timer)`, line 32),
so a send executed on the caller's own goroutine completes only when the
poll loop's `select` receives it; spawning a waiter goroutine never blocks
the caller. -/
def RegistrationStep.blocksConstructor : RegistrationStep → Bool
  | .sendOnCallerFlow => true
  | .spawnDelayedWaiter _ => false

/-- Helper: an interval timer whose next-due time has not strictly passed
does not fire: `tick` is the identity and emits nothing. -/
theorem tick_no_fire {T E : Type} (tm : IntervalTimer T E) (t : Int)
    (h : ¬ tm.n < t) : tm.tick t = (tm, []) := by
  simp [IntervalTimer.tick, h]

/-- Helper: an interval timer whose next-due time has strictly passed fires:
the callback is invoked once and `n` advances to `t + i`. -/
theorem tick_fire {T E : Type} (tm : IntervalTimer T E) (t : Int)
    (h : tm.n < t) : tm.tick t = ({ tm with n := t + tm.i }, [tm.fn tm.t]) := by
  simp [IntervalTimer.tick, h]

/-- Helper: a run of ticks at times none of which strictly passes the stored
next-due time changes nothing and fires nowhere. -/
theorem tickRun_no_fire {T E : Type} (tm : IntervalTimer T E) (ts : List Int)
    (h : ∀ u ∈ ts, u ≤ tm.n) : tickRun tm ts = (tm, []) := by
  induction ts with
  | nil => rfl
  | cons t ts ih =>
    have h1 : ¬ tm.n < t := not_lt.2 (h t (List.mem_cons_self t ts))
    simp only [tickRun, tick_no_fire tm t h1, List.isEmpty_nil, if_true]
    exact ih fun u hu => h u (List.mem_cons_of_mem t hu)

/-- Helper: the first fire of a tick run happens strictly after the stored
next-due time of the starting state. -/
theorem tickRun_head_gt {T E : Type} (tm : IntervalTimer T E) (ts : List Int) :
    ∀ f, ((tickRun tm ts).2).head? = some f → tm.n < f := by
  induction ts generalizing tm with
  | nil => intro f hf; simp [tickRun] at hf
  | cons t ts ih =>
    intro f hf
    by_cases h : tm.n < t
    · simp [tickRun, tick_fire tm t h] at hf
      exact hf ▸ h
    · simp only [tickRun, tick_no_fire tm t h, List.isEmpty_nil, if_true] at hf
      exact ih tm f hf

/-- Helper: every fire time of a tick run is one of the tick times. -/
theorem tickRun_fires_mem {T E : Type} (tm : IntervalTimer T E)
    (ts : List Int) : ∀ f ∈ (tickRun tm ts).2, f ∈ ts := by
  induction ts generalizing tm with
  | nil => intro f hf; simp [tickRun] at hf
  | cons t ts ih =>
    intro f hf
    by_cases h : tm.n < t
    · simp [tickRun, tick_fire tm t h] at hf
      rcases hf with rfl | hf
      · exact List.mem_cons_self f ts
      · exact List.mem_cons_of_mem t (ih _ f hf)
    · simp only [tickRun, tick_no_fire tm t h, List.isEmpty_nil, if_true] at hf
      exact List.mem_cons_of_mem t (ih tm f hf)

/-- Helper: along any tick run, consecutive fire times are separated by
strictly more than the timer's interval, because each fire resets `n` to
the fire time plus the interval and the next fire must strictly pass `n`. -/
theorem tickRun_chain {T E : Type} (tm : IntervalTimer T E) (ts : List Int) :
    ((tickRun tm ts).2).Chain' (fun a b => a + tm.i < b) := by
  induction ts generalizing tm with
  | nil => simp [tickRun]
  | cons t ts ih =>
    by_cases h : tm.n < t
    · simp only [tickRun, tick_fire tm t h, List.isEmpty_cons,
        Bool.false_eq_true, if_false]
      rw [List.chain'_cons']
      refine ⟨?_, ih ({ tm with n := t + tm.i })⟩
      intro b hb
      exact tickRun_head_gt ({ tm with n := t + tm.i }) ts b
        (Option.mem_def.1 hb)
    · simp only [tickRun, tick_no_fire tm t h, List.isEmpty_nil, if_true]
      exact ih tm


/-- C1: evaluation of the sweep at the failing input.  A single one-shot
timer is ticked and marked (k = 1 of n = 1), yet the removal phase leaves
the live set with 1 entry instead of the 0 the claim requires, because
`append(s.timers[:idx], s.timers[:idx+1]...)` at `idx = 0` re-appends the
marked timer rather than deleting it. -/
theorem sweep_marked_oneTimer_not_removed :
    (sweep [Timer.one (⟨0, fun n : Nat => n, 7⟩ : OneTimer Nat Nat)] 5).1.length = 1
    ∧ (sweep [Timer.one (⟨0, fun n : Nat => n, 7⟩ : OneTimer Nat Nat)] 5).2 = [7] :=
  ⟨rfl, rfl⟩

/-- C3: evaluation at the failing input.  Because the marked one-shot timer
survives removal, the poll loop ticks it again on the next sweep: across two
consecutive sweeps the callback of a single one-shot timer is invoked twice,
contradicting the never-more-than-once claim. -/
theorem oneTimer_fires_twice_across_sweeps :
    (sweep [Timer.one (⟨0, fun n : Nat => n, 7⟩ : OneTimer Nat Nat)] 1).2 = [7]
    ∧ (sweep (sweep [Timer.one (⟨0, fun n : Nat => n, 7⟩ : OneTimer Nat Nat)] 1).1 2).2 = [7] :=
  ⟨rfl, rfl⟩

/-- C4: an interval timer's `tick(now)` invokes the callback and advances
`nextDue` to `now + interval` exactly when `now` is strictly after the
stored `nextDue`, is a no-op otherwise, and after a fire at `now` any
number of further ticks at times less than one interval after that fire
produce no further callback invocation. -/
theorem intervalTick_strict_due_iff {T E : Type} (tm : IntervalTimer T E)
    (now : Int) (ts : List Int) :
    (tm.n < now → tm.tick now = ({ tm with n := now + tm.i }, [tm.fn tm.t]))
    ∧ (¬ tm.n < now → tm.tick now = (tm, []))
    ∧ (tm.n < now → (∀ u ∈ ts, u - now < tm.i) →
        (tickRun (tm.tick now).1 ts).2 = []) := by
  refine ⟨tick_fire tm now, tick_no_fire tm now, ?_⟩
  intro h hu
  have hle : ∀ u ∈ ts, u ≤ ((tm.tick now).1).n := by
    intro u hmem
    rw [tick_fire tm now h]
    have := hu u hmem
    show u ≤ now + tm.i
    omega
  rw [tickRun_no_fire _ ts hle]

/-- Witness for C4 at a concrete timer: due at 5, ticked at 6 (fires), then
ticked at 7, 8 and 15, all less than one interval (10) after the fire:
no further invocation. -/
theorem intervalTick_strict_due_iff_witness :
    ((5 : Int) < 6 ∧ ∀ u ∈ ([7, 8, 15] : List Int), u - 6 < (10 : Int))
    ∧ (tickRun (((⟨0, 10, 5, fun n : Nat => n, 7, false⟩ :
        IntervalTimer Nat Nat).tick 6).1) [7, 8, 15]).2 = [] :=
  ⟨⟨by decide, by decide⟩,
    (intervalTick_strict_due_iff
      (⟨0, 10, 5, fun n : Nat => n, 7, false⟩ : IntervalTimer Nat Nat)
      6 [7, 8, 15]).2.2 (by decide) (by decide)⟩

/-- C5: for a timer built by `NewIntervalTimer` with delay `d` and interval
`i` at registration time `reg`, construction sets `nextDue = reg + i`;
along any run of poll ticks whose times respect the registration delay
(every tick time is at least `reg + d`, which is when the timer can first
be live), consecutive fire times are separated by at least `i`, and the
first fire is no earlier than `max d i` after registration. -/
theorem intervalTimer_fire_separation {T E : Type} (fn : T → E) (v : T)
    (d i reg : Int) (tm : IntervalTimer T E)
    (htm : tm = NewIntervalTimer fn v (some d) i reg)
    (ts : List Int) (hd : ∀ t ∈ ts, reg + d ≤ t) :
    tm.n = reg + i
    ∧ ((tickRun tm ts).2).Chain' (fun a b => a + i ≤ b)
    ∧ ∀ f, ((tickRun tm ts).2).head? = some f → reg + max d i ≤ f := by
  subst htm
  refine ⟨rfl, ?_, ?_⟩
  · exact (tickRun_chain (NewIntervalTimer fn v (some d) i reg) ts).imp
      fun a b hab => le_of_lt hab
  · intro f hf
    have h1 : reg + i < f :=
      tickRun_head_gt (NewIntervalTimer fn v (some d) i reg) ts f hf
    have h2 : reg + d ≤ f := hd f
      (tickRun_fires_mem (NewIntervalTimer fn v (some d) i reg) ts f
        (List.mem_of_mem_head? (Option.mem_def.2 hf)))
    omega

/-- Witness for C5: timer registered at 0 with delay 2 and interval 3,
poll-ticked at times 4, 5 and 9 (all at least 2 after registration). -/
theorem intervalTimer_fire_separation_witness :
    (∀ t ∈ ([4, 5, 9] : List Int), (0 : Int) + 2 ≤ t)
    ∧ ((NewIntervalTimer (fun n : Nat => n) 0 (some 2) 3 0 :
          IntervalTimer Nat Nat).n = 0 + 3
       ∧ ((tickRun (NewIntervalTimer (fun n : Nat => n) 0 (some 2) 3 0)
            [4, 5, 9]).2).Chain' (fun a b => a + 3 ≤ b)
       ∧ ∀ f, ((tickRun (NewIntervalTimer (fun n : Nat => n) 0 (some 2) 3 0)
            [4, 5, 9]).2).head? = some f → (0 : Int) + max 2 3 ≤ f) :=
  ⟨by decide,
    intervalTimer_fire_separation (fun n : Nat => n) 0 2 3 0 _ rfl
      [4, 5, 9] (by decide)⟩

/-- Helper: characterization of a panic-aware sweep.  The sweep panics
exactly when some callback panics, and the effects produced are those of the
callbacks strictly before the first panicking one. -/
theorem sweepP_spec {T E : Type} (timers : List (PanicModel.POne T E)) :
    ((PanicModel.sweepP timers).2.isSome = PanicModel.hasPanic timers)
    ∧ (PanicModel.sweepP timers).1
        = (timers.takeWhile fun tm => (tm.fn tm.t).isSome).filterMap
            fun tm => tm.fn tm.t := by
  induction timers with
  | nil => exact ⟨rfl, rfl⟩
  | cons tm rest ih =>
    cases hfn : tm.fn tm.t with
    | none =>
      refine ⟨?_, ?_⟩
      · simp [PanicModel.sweepP, PanicModel.hasPanic, hfn]
      · simp [PanicModel.sweepP, hfn]
    | some e =>
      refine ⟨?_, ?_⟩
      · simp [PanicModel.sweepP, PanicModel.hasPanic, hfn, ih.1]
      · simp [PanicModel.sweepP, hfn, ih.2]

/-- C2 counterexample: live set of two one-shot timers whose first callback
panics.  The poll loop does not continue processing the remaining timers
and does not remain alive: the second callback is never invoked (effects
stay empty) and the loop is dead afterwards. -/
theorem pollSweep_panic_stops_loop :
    (PanicModel.pollSweep [(⟨0, fun _ => none, 0⟩ : PanicModel.POne Nat Nat),
        ⟨1, fun k => some k, 1⟩]).loopAlive = false
    ∧ (PanicModel.pollSweep [(⟨0, fun _ => none, 0⟩ : PanicModel.POne Nat Nat),
        ⟨1, fun k => some k, 1⟩]).effects = [] :=
  ⟨rfl, rfl⟩

/-- C2 amended: a callback panic is contained at the poll function boundary
and never re-raised to any caller, and it is recorded as a diagnostic; but
because the recover sits outside the for loop, a panic terminates the poll
loop: the loop stays alive exactly when no callback panicked, and only the
callbacks before the first panicking one run in that sweep. -/
theorem pollSweep_panic_containment {T E : Type}
    (timers : List (PanicModel.POne T E)) :
    (PanicModel.pollSweep timers).panicPropagated = false
    ∧ (PanicModel.pollSweep timers).loopAlive = !PanicModel.hasPanic timers
    ∧ (PanicModel.pollSweep timers).diagnostic.isSome
        = PanicModel.hasPanic timers
    ∧ (PanicModel.pollSweep timers).effects
        = (timers.takeWhile fun tm => (tm.fn tm.t).isSome).filterMap
            fun tm => tm.fn tm.t := by
  have hs := sweepP_spec timers
  cases h2 : (PanicModel.sweepP timers).2 with
  | none =>
    have hp : PanicModel.hasPanic timers = false := by
      rw [← hs.1, h2]; rfl
    refine ⟨?_, ?_, ?_, ?_⟩ <;>
      simp [PanicModel.pollSweep, h2, hp, hs.2]
  | some m =>
    have hp : PanicModel.hasPanic timers = true := by
      rw [← hs.1, h2]; rfl
    refine ⟨?_, ?_, ?_, ?_⟩ <;>
      simp [PanicModel.pollSweep, h2, hp, hs.2]

/-- C6: evaluation of the registration control flow.  With no delay, the
constructor's deferred `queue` call performs the unbuffered-channel send on
the caller's own goroutine before the constructor returns, blocking until
the scheduler accepts the timer; with a delay the send is spawned on a
detached waiter and the caller is not blocked. -/
theorem queueStep_no_delay_blocks_constructor :
    (queueStep none).blocksConstructor = true
    ∧ ∀ d : Int, (queueStep (some d)).blocksConstructor = false :=
  ⟨rfl, fun _ => rfl⟩

/-- C7 counterexample: constructing an interval timer with the non-positive
interval 0 is not rejected: `NewIntervalTimer` has no error path and returns
a fully formed timer, which moreover fires on the very first tick strictly
after creation, rather than failing fast. -/
theorem newIntervalTimer_zero_interval_accepted :
    (NewIntervalTimer (fun n : Nat => n) 5 none 0 0 : IntervalTimer Nat Nat)
      = ⟨0, 0, 0, fun n : Nat => n, 5, false⟩
    ∧ ((NewIntervalTimer (fun n : Nat => n) 5 none 0 0 :
        IntervalTimer Nat Nat).tick 1).2 = [5] :=
  ⟨rfl, rfl⟩

/-- C7 amended: `NewIntervalTimer` performs no validation of the interval
argument: for every interval value, including zero and negative ones,
construction succeeds and returns the timer record with `nextDue = now +
interval`; there is no rejection or error path. -/
theorem newIntervalTimer_no_validation {T E : Type} (fn : T → E) (v : T)
    (delay : Option Int) (i now : Int) :
    NewIntervalTimer fn v delay i now
      = (⟨now, i, now + i, fn, v, false⟩ : IntervalTimer T E) :=
  rfl

/-- C8: a one-shot timer reports no interval, always reports finished
(`getStop` is `true`), and `tick(now)` invokes the callback with the bound
payload unconditionally, for every value of `now`, leaving the timer
unchanged. -/
theorem oneTimer_capability_contract {T E : Type} (tm : OneTimer T E)
    (now : Int) :
    Timer.getInterval (Timer.one tm) = none
    ∧ Timer.getStop (Timer.one tm) = true
    ∧ Timer.tick (Timer.one tm) now = (Timer.one tm, [tm.fn tm.t]) :=
  ⟨rfl, rfl, rfl⟩

/-- C9: frame property of the interval timer's `tick`: creation time,
interval, callback, payload and stop flag are unchanged by every tick, and
when the timer does not fire the whole record is unchanged — `n` is the
only field `tick` can modify, and only on a fire. -/
theorem intervalTick_frame {T E : Type} (tm : IntervalTimer T E)
    (now : Int) :
    ((tm.tick now).1).c = tm.c
    ∧ ((tm.tick now).1).i = tm.i
    ∧ ((tm.tick now).1).fn = tm.fn
    ∧ ((tm.tick now).1).t = tm.t
    ∧ ((tm.tick now).1).s = tm.s
    ∧ (¬ tm.n < now → (tm.tick now).1 = tm) := by
  by_cases h : tm.n < now
  · rw [tick_fire tm now h]
    exact ⟨rfl, rfl, rfl, rfl, rfl, fun hc => absurd h hc⟩
  · rw [tick_no_fire tm now h]
    exact ⟨rfl, rfl, rfl, rfl, rfl, fun _ => rfl⟩

/-- Witness for C9 at a concrete non-firing tick: due at 5, ticked at 3. -/
theorem intervalTick_frame_witness :
    ¬ ((5 : Int) < 3)
    ∧ (((⟨0, 10, 5, fun n : Nat => n, 7, false⟩ :
        IntervalTimer Nat Nat).tick 3).1
          = ⟨0, 10, 5, fun n : Nat => n, 7, false⟩) :=
  ⟨by decide,
    (intervalTick_frame
      (⟨0, 10, 5, fun n : Nat => n, 7, false⟩ : IntervalTimer Nat Nat)
      3).2.2.2.2.2 (by decide)⟩

/-- C10: `NewIntervalTimer` accepts every interval value without error and
the resulting timer reports a present interval through the `timer`
interface; with a non-positive interval, once the timer fires at some time
`t`, every subsequent tick at any strictly later time fires the callback
again, so it fires on essentially every sweep. -/
theorem nonpositive_interval_repeats {T E : Type} (fn : T → E) (v : T)
    (delay : Option Int) (i now : Int) (tm : IntervalTimer T E)
    (hi : tm.i ≤ 0) (t u : Int) (hfire : tm.n < t) (hu : t < u) :
    Timer.getInterval (Timer.interval (NewIntervalTimer fn v delay i now))
      = some i
    ∧ ((tm.tick t).1.tick u).2 = [tm.fn tm.t] := by
  refine ⟨rfl, ?_⟩
  rw [tick_fire tm t hfire]
  have hdue : ({ tm with n := t + tm.i } : IntervalTimer T E).n < u := by
    show t + tm.i < u
    omega
  rw [tick_fire _ u hdue]

/-- Witness for C10: interval -2, timer due at 0, fired at 1, fired again
at 2. -/
theorem nonpositive_interval_repeats_witness :
    ((⟨0, -2, 0, fun n : Nat => n, 5, false⟩ :
        IntervalTimer Nat Nat).i ≤ 0
      ∧ (⟨0, -2, 0, fun n : Nat => n, 5, false⟩ :
        IntervalTimer Nat Nat).n < 1
      ∧ (1 : Int) < 2)
    ∧ (Timer.getInterval (Timer.interval
        (NewIntervalTimer (fun n : Nat => n) 5 none (-2) 0)) = some (-2)
       ∧ (((⟨0, -2, 0, fun n : Nat => n, 5, false⟩ :
          IntervalTimer Nat Nat).tick 1).1.tick 2).2 = [5]) :=
  ⟨⟨by decide, by decide, by decide⟩,
    nonpositive_interval_repeats (fun n : Nat => n) 5 none (-2) 0 _
      (by decide) 1 2 (by decide) (by decide)⟩

end Gotimer
